import Mathlib

/-!
Verification of the gomall-server order/flash-sale core.

This file gives a shallow embedding of the order-lifecycle and flash-sale
core of the `gomall-server` repository (Go microservices) and proves or
refutes the frozen specification claims about it.

Embedded components:

* the Redis Lua admission script `seckillScript` and the `SeckillProduct`
  RPC handler (apps/product/main.go),
* the inventory operations `DecreaseStock` / `RollbackStock`
  (apps/product/main.go),
* the order service: `CreateOrder` (both the variant in
  apps/order/main.go and the selected-sku-ids variant of the order
  service file that also hosts the seckill consumer), `MarkOrderPaid`,
  `cancelOrderLogic`, and `createSeckillOrder`,
* the payment service `Pay` handler and the gateway's construction of
  its request.

Machine integers are modelled as `Int` (Go `int`/`int64` arithmetic in
these code paths never approaches overflow and the repository relies on
plain integer arithmetic); money amounts are carried as an abstract
integer price snapshot, since no claim under scrutiny depends on the
floating-point representation of prices.
-/

set_option maxHeartbeats 1000000

namespace Gomall

/-- gRPC status codes used by the services (google.golang.org/grpc/codes). -/
inductive Code where
  | ok
  | invalidArgument
  | notFound
  | permissionDenied
  | failedPrecondition
  | resourceExhausted
  | alreadyExists
  | unknown
  | internal
  deriving DecidableEq, Repr

/-! Admission gate (apps/product/main.go, `seckillScript`)

The Redis state relevant to one flash SKU: the counter key
`seckill:stock:<sku>` (absent = not armed) and the winners set
`seckill:user:<sku>`.  The winners set is modelled as a duplicate-free
list to mirror Redis set semantics (`SADD` inserts only absent members,
and the script only reaches `SADD` after `SISMEMBER` returned 0). -/
structure GateState where
  stock : Option Int
  winners : List Int
  deriving DecidableEq, Repr

/-- The Lua script, executed as one atomic step by Redis.  Return codes
as in the source: `-1` duplicate user, `-2` stock key missing (not
armed), `0` sold out, `1` won (counter decremented, user added). -/
def seckillScriptRun (st : GateState) (userId : Int) : Int × GateState :=
  if userId ∈ st.winners then
    (-1, st)
  else
    match st.stock with
    | none => (-2, st)
    | some s =>
      if s ≤ 0 then
        (0, st)
      else
        (1, { stock := some (s - 1), winners := userId :: st.winners })

/-- The `SeckillProduct` RPC handler: runs the script and maps its
integer result onto a gRPC status (the Go `switch` statement). -/
def SeckillProduct (st : GateState) (userId : Int) : Code × GateState :=
  let r := seckillScriptRun st userId
  if r.1 = 1 then (.ok, r.2)
  else if r.1 = 0 then (.resourceExhausted, r.2)
  else if r.1 = -1 then (.alreadyExists, r.2)
  else if r.1 = -2 then (.failedPrecondition, r.2)
  else (.unknown, r.2)

/-- Outcomes of the admission operation as the specification names them. -/
inductive GateOutcome where
  | WON
  | SOLD_OUT
  | DUP
  | NOT_ARMED
  deriving DecidableEq, Repr

/-- The four-step admission algorithm exactly as the specification words
it: (1) member of winners → DUP; (2) stock key absent → NOT_ARMED;
(3) counter ≤ 0 → SOLD_OUT; (4) decrement counter, add user, WON. -/
def gateSpecStep (st : GateState) (userId : Int) : GateOutcome × GateState :=
  if userId ∈ st.winners then
    (.DUP, st)
  else
    match st.stock with
    | none => (.NOT_ARMED, st)
    | some s =>
      if s ≤ 0 then
        (.SOLD_OUT, st)
      else
        (.WON, { stock := some (s - 1), winners := userId :: st.winners })

/-- The surfacing of each outcome to the RPC caller, as the
specification words it: WON → success, SOLD_OUT → RESOURCE_EXHAUSTED,
DUP → ALREADY_EXISTS, NOT_ARMED → FAILED_PRECONDITION. -/
def gateSpecCode : GateOutcome → Code
  | .WON => .ok
  | .SOLD_OUT => .resourceExhausted
  | .DUP => .alreadyExists
  | .NOT_ARMED => .failedPrecondition

/-! Sequential execution of admission requests

Redis executes each Lua script invocation as one atomic step on a
single-threaded command processor, so any concurrent set of `admit`
requests is equivalent to some sequential execution: a list of user ids
processed one script run at a time. -/

/-- Run the script for each request in order; log `(userId, scriptCode)`
per request and return the final gate state. -/
def runSeckill (st : GateState) : List Int → List (Int × Int) × GateState
  | [] => ([], st)
  | u :: us =>
    let r := seckillScriptRun st u
    let rest := runSeckill r.2 us
    ((u, r.1) :: rest.1, rest.2)

/-- The gate states observed before/after each request. -/
def seckillStates (st : GateState) : List Int → List GateState
  | [] => [st]
  | u :: us => st :: seckillStates (seckillScriptRun st u).2 us

/-- The users whose request returned script code `1` (WON), in order. -/
def wonUsers : List (Int × Int) → List Int
  | [] => []
  | p :: l => if p.2 = 1 then p.1 :: wonUsers l else wonUsers l

/-! Inventory service (apps/product/main.go, `DecreaseStock` / `RollbackStock`)

The authoritative SKU stock lives in MySQL.  Both operations open a
transaction, read the row under `FOR UPDATE` (so per-SKU calls
serialize; an interleaving is a sequence), and commit a single update.
The stock table is modelled as an association list `skuId ↦ stock`. -/

/-- `SELECT ... FOR UPDATE` row read. -/
def lookupStock (stocks : List (Int × Int)) (skuId : Int) : Option Int :=
  (stocks.find? (fun p => p.1 = skuId)).map (·.2)

/-- `UPDATE skus SET stock = v WHERE id = skuId`. -/
def setStock (stocks : List (Int × Int)) (skuId v : Int) : List (Int × Int) :=
  stocks.map (fun p => if p.1 = skuId then (p.1, v) else p)

/-- The `DecreaseStock` RPC: row missing → NotFound; `stock < count` →
FailedPrecondition with the transaction rolled back (no change);
otherwise `stock := stock - count`. -/
def DecreaseStock (stocks : List (Int × Int)) (skuId count : Int) :
    Code × List (Int × Int) :=
  match lookupStock stocks skuId with
  | none => (.notFound, stocks)
  | some stock =>
    if stock < count then (.failedPrecondition, stocks)
    else (.ok, setStock stocks skuId (stock - count))

/-- The `RollbackStock` RPC: row missing → NotFound; otherwise it
unconditionally adds: `stock := stock + count`. -/
def RollbackStock (stocks : List (Int × Int)) (skuId count : Int) :
    Code × List (Int × Int) :=
  match lookupStock stocks skuId with
  | none => (.notFound, stocks)
  | some stock => (.ok, setStock stocks skuId (stock + count))

/-- A completed inventory call against one SKU. -/
inductive StockOp where
  | dec (count : Int)
  | rb (count : Int)
  deriving DecidableEq, Repr

/-- The `count` argument of the call. -/
def StockOp.amount : StockOp → Int
  | .dec c => c
  | .rb c => c

/-- Dispatch one call. -/
def applyStockOp (sku : Int) (stocks : List (Int × Int)) :
    StockOp → Code × List (Int × Int)
  | .dec c => DecreaseStock stocks sku c
  | .rb c => RollbackStock stocks sku c

/-- Run a serialized sequence of inventory calls, logging each call's
returned code. -/
def runStockOps (sku : Int) (stocks : List (Int × Int)) :
    List StockOp → List (StockOp × Code) × List (Int × Int)
  | [] => ([], stocks)
  | op :: rest =>
    let r := applyStockOp sku stocks op
    let out := runStockOps sku r.2 rest
    ((op, r.1) :: out.1, out.2)

/-- The stock tables observed before/after each call. -/
def stockTrace (sku : Int) (stocks : List (Int × Int)) :
    List StockOp → List (List (Int × Int))
  | [] => [stocks]
  | op :: rest => stocks :: stockTrace sku (applyStockOp sku stocks op).2 rest

/-- Sum of the counts of the decreases that returned OK. -/
def sumDecOk : List (StockOp × Code) → Int
  | [] => 0
  | (StockOp.dec c, Code.ok) :: l => c + sumDecOk l
  | _ :: l => sumDecOk l

/-- Sum of the counts of the rollbacks. -/
def sumRb : List (StockOp × Code) → Int
  | [] => 0
  | (StockOp.rb c, _) :: l => c + sumRb l
  | _ :: l => sumRb l

/-! Order service data model (apps/order/model)

Order rows with their item lists, plus the address and product
snapshots consumed by the order service.  `status` is the Go `int`
column: 0 = PENDING, 1 = PAID, 2 = CANCELLED, 3 = SHIPPED. -/

structure OrderItemRow where
  productId : Int
  skuId : Int
  productName : String
  skuName : String
  price : Int
  quantity : Int
  picture : String
  deriving DecidableEq, Repr

structure OrderRow where
  orderNo : String
  userId : Int
  totalAmount : Int
  status : Int
  receiverName : String
  receiverMobile : String
  receiverAddress : String
  items : List OrderItemRow
  deriving DecidableEq, Repr

structure AddressRow where
  id : Int
  userId : Int
  name : String
  mobile : String
  province : String
  city : String
  district : String
  detail : String
  deriving DecidableEq, Repr

structure ProductInfo where
  id : Int
  skuId : Int
  name : String
  skuName : String
  price : Int
  picture : String
  deriving DecidableEq, Repr

/-- `db.Where("order_no = ?", no).First(&o)` — `order_no` carries a DB
unique index, so the first match is the row. -/
def findOrder (db : List OrderRow) (orderNo : String) : Option OrderRow :=
  db.find? (fun o => o.orderNo = orderNo)

/-- `db.Model(&o).UpdateColumn("status", st)` on the row addressed by
its unique `order_no`. -/
def updateStatus (db : List OrderRow) (orderNo : String) (st : Int) : List OrderRow :=
  db.map (fun o => if o.orderNo = orderNo then { o with status := st } else o)

/-! Handlers `MarkOrderPaid` and `cancelOrderLogic` (order service) -/

/-- The `MarkOrderPaid` RPC: order missing → NotFound; `status == 1` →
success without change (idempotent); otherwise — with no further status
check — `status := 1` and success. -/
def MarkOrderPaid (db : List OrderRow) (orderNo : String) : Code × List OrderRow :=
  match findOrder db orderNo with
  | none => (.notFound, db)
  | some o =>
    if o.status = 1 then (.ok, db)
    else (.ok, updateStatus db orderNo 1)

/-- The per-item rollback loop of `cancelOrderLogic`: one
`RollbackStock(skuId, quantity)` RPC per item.  A failing call is only
logged (`fails` says which calls fail); the loop always continues and
the issued calls are returned. -/
def rollbackCalls : List OrderItemRow → List Bool → List (Int × Int)
  | [], _ => []
  | it :: rest, fails => (it.skuId, it.quantity) :: rollbackCalls rest fails.tail

/-- `cancelOrderLogic` (shared by the CancelOrder RPC and the expiry
consumer): order missing → NotFound; `status != 0` → success without
any effect; otherwise `status := 2` and one rollback call per item.
Returns (code, new order table, rollback calls issued). -/
def cancelOrderLogic (db : List OrderRow) (orderNo : String) (rbFails : List Bool) :
    Code × List OrderRow × List (Int × Int) :=
  match findOrder db orderNo with
  | none => (.notFound, db, [])
  | some o =>
    if o.status ≠ 0 then (.ok, db, [])
    else (.ok, updateStatus db orderNo 2, rollbackCalls o.items rbFails)

/-- A CANCELLED order used as concrete counterexample input. -/
def cancelledOrder : OrderRow :=
  { orderNo := "O1", userId := 1, totalAmount := 10, status := 2,
    receiverName := "n", receiverMobile := "m", receiverAddress := "a", items := [] }

/-! Seckill consumer (`createSeckillOrder`) -/

/-- The deterministic flash order number `"SK-" ∥ userId ∥ "-" ∥ skuId`. -/
def seckillOrderNo (userId skuId : Int) : String :=
  "SK-" ++ toString userId ++ "-" ++ toString skuId

/-- `db.Model(&Order{}).Where("order_no = ?", no).Count(&exist)`. -/
def countOrderNo (db : List OrderRow) (no : String) : Nat :=
  (db.filter (fun o => o.orderNo = no)).length

/-- The seckill consumer's order writer: compute the deterministic
order number; if a row with it already exists stop successfully;
otherwise take the receiver snapshot from the user's first address
(a synthetic default when none), fetch the product snapshot (`none`
models a failed GetProduct: error, nothing written) and insert one
order row with a single quantity-1 item in status PENDING. -/
def createSeckillOrder (db : List OrderRow) (userId skuId : Int)
    (addrs : List AddressRow) (prod : Option ProductInfo) : Option (List OrderRow) :=
  let orderNo := seckillOrderNo userId skuId
  if 0 < countOrderNo db orderNo then some db
  else
    let recv : String × String × String :=
      match addrs with
      | [] => ("秒杀用户" ++ toString userId, "13800008888", "秒杀专用通道虚拟地址")
      | a :: _ => (a.name, a.mobile, a.province ++ a.city ++ a.district ++ a.detail)
    match prod with
    | none => none
    | some p =>
      some (db ++ [{ orderNo := orderNo, userId := userId, totalAmount := p.price,
                     status := 0, receiverName := recv.1, receiverMobile := recv.2.1,
                     receiverAddress := recv.2.2,
                     items := [{ productId := p.id, skuId := p.skuId,
                                 productName := p.name, skuName := p.skuName,
                                 price := p.price, quantity := 1,
                                 picture := p.picture }] }])

/-- Redelivering the same `(userId, skuId)` event `n` times. -/
def iterateSeckill (userId skuId : Int) (addrs : List AddressRow)
    (prod : Option ProductInfo) : Nat → List OrderRow → Option (List OrderRow)
  | 0, db => some db
  | n + 1, db =>
    match createSeckillOrder db userId skuId addrs prod with
    | none => none
    | some db' => iterateSeckill userId skuId addrs prod n db'

/-! Standard checkout (`CreateOrder`)

The repository carries two revisions of the order service's
`CreateOrder`.  `CreateOrder` below embeds the most evolved revision
(the order-service file that also hosts the seckill consumer): it takes
`sku_ids`, intersects them with the cart, wraps a stock-decrement error
in RESOURCE_EXHAUSTED, deletes only the selected cart lines — and
performs no address-ownership check.  `CreateOrderV1` embeds the
apps/order/main.go revision: it checks address ownership
(PERMISSION_DENIED), orders the whole cart, wraps a stock-decrement
error in UNKNOWN and empties the whole cart. -/

structure CartItem where
  skuId : Int
  quantity : Int
  deriving DecidableEq, Repr

/-- The environment a `CreateOrder` call reads and writes: the address
service rows, the caller's cart, the product service catalogue and
stock table, and the order table. -/
structure OrderEnv where
  addresses : List AddressRow
  cart : List CartItem
  products : List ProductInfo
  stocks : List (Int × Int)
  orders : List OrderRow
  deriving DecidableEq, Repr

structure CreateOrderReq where
  userId : Int
  addressId : Int
  skuIds : List Int
  deriving DecidableEq, Repr

inductive CreateOrderResult where
  | err (c : Code)
  | success (orderNo : String) (totalAmount : Int)
  deriving DecidableEq, Repr

/-- The observable outcome of a `CreateOrder` call: the RPC result and
the stock table, order table and cart afterwards. -/
structure CreateOrderOut where
  result : CreateOrderResult
  stocks : List (Int × Int)
  orders : List OrderRow
  cart : List CartItem
  deriving DecidableEq, Repr

/-- `GetAddress` RPC lookup. -/
def getAddress (addrs : List AddressRow) (id : Int) : Option AddressRow :=
  addrs.find? (fun a => a.id = id)

/-- `GetProduct` RPC lookup (keyed by SKU id). -/
def getProduct (products : List ProductInfo) (skuId : Int) : Option ProductInfo :=
  products.find? (fun p => p.skuId = skuId)

/-- The per-line loop of `CreateOrder`: for each cart line fetch the
product snapshot and call `DecreaseStock`; abort on the first failure.
An aborted loop returns the stock table as mutated so far (remote
decrements of earlier lines are not rolled back — only the local order
transaction is).  `failCode` is the gRPC code the order service wraps a
decrement failure in (RESOURCE_EXHAUSTED in the latest revision,
UNKNOWN in apps/order/main.go). -/
def processItems (products : List ProductInfo) (failCode : Code) :
    List CartItem → List (Int × Int) →
    Except (Code × List (Int × Int)) (List (Int × Int) × List OrderItemRow × Int)
  | [], stocks => .ok (stocks, [], 0)
  | item :: rest, stocks =>
    match getProduct products item.skuId with
    | none => .error (.notFound, stocks)
    | some p =>
      let r := DecreaseStock stocks item.skuId item.quantity
      if r.1 = Code.ok then
        match processItems products failCode rest r.2 with
        | .error e => .error e
        | .ok (stocksf, items, total) =>
          .ok (stocksf,
            { productId := p.id, skuId := p.skuId, productName := p.name,
              skuName := p.skuName, price := p.price, quantity := item.quantity,
              picture := p.picture } :: items,
            p.price * item.quantity + total)
      else .error (failCode, r.2)

/-- The post-commit cart cleanup of the latest revision: one
`DeleteItem(skuId)` call per selected line. -/
def removeSelected (c : List CartItem) (selected : List CartItem) : List CartItem :=
  selected.foldl (fun acc it => acc.filter (fun x => x.skuId ≠ it.skuId)) c

/-- `CreateOrder`, latest revision (selected-sku-ids variant).  `now`
stands for `time.Now().UnixNano()` in the generated order number.
Note: after fetching the address this revision does NOT compare
`addr.userId` with the caller. -/
def CreateOrder (env : OrderEnv) (req : CreateOrderReq) (now : Int) : CreateOrderOut :=
  if req.addressId ≤ 0 then
    ⟨.err .invalidArgument, env.stocks, env.orders, env.cart⟩
  else if req.skuIds = [] then
    ⟨.err .invalidArgument, env.stocks, env.orders, env.cart⟩
  else
    match getAddress env.addresses req.addressId with
    | none => ⟨.err .notFound, env.stocks, env.orders, env.cart⟩
    | some addr =>
      if env.cart = [] then
        ⟨.err .unknown, env.stocks, env.orders, env.cart⟩
      else
        let selected := env.cart.filter (fun it => it.skuId ∈ req.skuIds)
        if selected = [] then
          ⟨.err .invalidArgument, env.stocks, env.orders, env.cart⟩
        else
          match processItems env.products .resourceExhausted selected env.stocks with
          | .error e => ⟨.err e.1, e.2, env.orders, env.cart⟩
          | .ok (stocks', items, total) =>
            let orderNo := toString now ++ toString req.userId
            ⟨.success orderNo total, stocks',
              env.orders ++
                [{ orderNo := orderNo, userId := req.userId, totalAmount := total,
                   status := 0, receiverName := addr.name,
                   receiverMobile := addr.mobile,
                   receiverAddress :=
                     addr.province ++ addr.city ++ addr.district ++ addr.detail,
                   items := items }],
              removeSelected env.cart selected⟩

/-- `CreateOrder`, apps/order/main.go revision: address ownership is
checked, the whole cart is ordered, and the cart is emptied. -/
def CreateOrderV1 (env : OrderEnv) (req : CreateOrderReq) (now : Int) : CreateOrderOut :=
  if req.addressId ≤ 0 then
    ⟨.err .invalidArgument, env.stocks, env.orders, env.cart⟩
  else
    match getAddress env.addresses req.addressId with
    | none => ⟨.err .notFound, env.stocks, env.orders, env.cart⟩
    | some addr =>
      if addr.userId ≠ req.userId then
        ⟨.err .permissionDenied, env.stocks, env.orders, env.cart⟩
      else if env.cart = [] then
        ⟨.err .unknown, env.stocks, env.orders, env.cart⟩
      else
        match processItems env.products .unknown env.cart env.stocks with
        | .error e => ⟨.err e.1, e.2, env.orders, env.cart⟩
        | .ok (stocks', items, total) =>
          let orderNo := toString now ++ toString req.userId
          ⟨.success orderNo total, stocks',
            env.orders ++
              [{ orderNo := orderNo, userId := req.userId, totalAmount := total,
                 status := 0, receiverName := addr.name,
                 receiverMobile := addr.mobile,
                 receiverAddress :=
                   addr.province ++ addr.city ++ addr.district ++ addr.detail,
                 items := items }],
            []⟩

/-- Concrete environment: the address with id 1 belongs to user 2;
the caller is user 1; SKU 5 is in the cart with ample stock. -/
def envC8 : OrderEnv :=
  { addresses := [{ id := 1, userId := 2, name := "owner", mobile := "m",
                    province := "P", city := "C", district := "D", detail := "X" }],
    cart := [{ skuId := 5, quantity := 1 }],
    products := [{ id := 50, skuId := 5, name := "prod", skuName := "sku",
                   price := 7, picture := "" }],
    stocks := [(5, 10)],
    orders := [] }

def reqC8 : CreateOrderReq := { userId := 1, addressId := 1, skuIds := [5] }

/-- Concrete environment for the out-of-stock scenario: line 1 (SKU 1,
qty 1, stock 5) succeeds, line 2 (SKU 11, qty 2, stock 1) fails. -/
def envC7 : OrderEnv :=
  { addresses := [{ id := 1, userId := 1, name := "me", mobile := "m",
                    province := "P", city := "C", district := "D", detail := "X" }],
    cart := [{ skuId := 1, quantity := 1 }, { skuId := 11, quantity := 2 }],
    products := [{ id := 100, skuId := 1, name := "a", skuName := "s1",
                   price := 5, picture := "" },
                 { id := 101, skuId := 11, name := "b", skuName := "s2",
                   price := 9, picture := "" }],
    stocks := [(1, 5), (11, 1)],
    orders := [] }

def reqC7 : CreateOrderReq := { userId := 1, addressId := 1, skuIds := [1, 11] }

/-- Concrete environment for selected-line scoping: the cart holds SKU 5
(selected) and SKU 6 (not selected). -/
def envC9 : OrderEnv :=
  { addresses := [{ id := 1, userId := 1, name := "me", mobile := "m",
                    province := "P", city := "C", district := "D", detail := "X" }],
    cart := [{ skuId := 5, quantity := 1 }, { skuId := 6, quantity := 3 }],
    products := [{ id := 50, skuId := 5, name := "a", skuName := "s",
                   price := 7, picture := "" },
                 { id := 60, skuId := 6, name := "b", skuName := "t",
                   price := 2, picture := "" }],
    stocks := [(5, 10), (6, 4)],
    orders := [] }

def reqC9 : CreateOrderReq := { userId := 1, addressId := 1, skuIds := [5] }

/-! Payment path (payment service `Pay`, gateway `/payment/pay`) -/

/-- The JSON body the gateway binds for `/payment/pay`: only `order_no`
(required) and `amount`. -/
structure PayBody where
  orderNo : String
  amount : Int
  deriving DecidableEq, Repr

structure PayRequest where
  orderNo : String
  amount : Int
  deriving DecidableEq, Repr

/-- The gateway's construction of the payment RPC request: it forwards
the body's order_no and amount verbatim; the authenticated user id is
not placed in the request at all. -/
def buildPayRequest (userId : Int) (body : PayBody) : PayRequest :=
  { orderNo := body.orderNo, amount := body.amount }

/-- The payment service `Pay` handler: after simulating the third-party
gateway it calls `MarkOrderPaid` with only the order number — the
amount is never read, and no comparison with the order's total is made;
a `MarkOrderPaid` error surfaces as INTERNAL. -/
def Pay (db : List OrderRow) (req : PayRequest) : Code × List OrderRow :=
  let r := MarkOrderPaid db req.orderNo
  if r.1 = Code.ok then (Code.ok, r.2) else (Code.internal, r.2)

/-- A PENDING order of user 9 with total 50, used as C10's concrete
input. -/
def payOrderC10 : OrderRow :=
  { orderNo := "P1", userId := 9, totalAmount := 50, status := 0,
    receiverName := "n", receiverMobile := "m", receiverAddress := "a", items := [] }

/-- Claim C2: the `SeckillProduct` handler implements exactly the
specification's four-step admission algorithm, and surfaces
WON / SOLD_OUT / DUP / NOT_ARMED as
success / RESOURCE_EXHAUSTED / ALREADY_EXISTS / FAILED_PRECONDITION. -/
theorem seckill_implements_four_step_algorithm (st : GateState) (userId : Int) :
    SeckillProduct st userId =
      (gateSpecCode (gateSpecStep st userId).1, (gateSpecStep st userId).2) := by
  unfold SeckillProduct seckillScriptRun gateSpecStep gateSpecCode
  by_cases h : userId ∈ st.winners
  · simp [h]
  · cases hs : st.stock with
    | none => simp [h, hs]
    | some s =>
      by_cases hle : s ≤ 0
      · simp [h, hs, hle]
      · simp [h, hs, hle]

lemma runSeckill_cons (st : GateState) (u : Int) (us : List Int) :
    runSeckill st (u :: us) =
      ((u, (seckillScriptRun st u).1) :: (runSeckill (seckillScriptRun st u).2 us).1,
        (runSeckill (seckillScriptRun st u).2 us).2) := rfl

lemma wonUsers_cons (p : Int × Int) (l : List (Int × Int)) :
    wonUsers (p :: l) = if p.2 = 1 then p.1 :: wonUsers l else wonUsers l := rfl

lemma scriptRun_dup {st : GateState} {u : Int} (h : u ∈ st.winners) :
    seckillScriptRun st u = (-1, st) := by
  unfold seckillScriptRun; simp [h]

lemma scriptRun_soldOut {w : List Int} {u : Int} {s : Int} (h : u ∉ w) (hs : s ≤ 0) :
    seckillScriptRun ⟨some s, w⟩ u = (0, ⟨some s, w⟩) := by
  unfold seckillScriptRun; simp [h, hs]

lemma scriptRun_won {w : List Int} {u : Int} {s : Int} (h : u ∉ w) (hs : ¬ s ≤ 0) :
    seckillScriptRun ⟨some s, w⟩ u = (1, ⟨some (s - 1), u :: w⟩) := by
  unfold seckillScriptRun; simp [h, hs]

/-- One script run keeps the counter present and non-negative. -/
lemma seckill_step_stock_nonneg {st : GateState} (u : Int)
    (h : ∃ v, st.stock = some v ∧ 0 ≤ v) :
    ∃ v, ((seckillScriptRun st u).2).stock = some v ∧ 0 ≤ v := by
  obtain ⟨v, hv, hv0⟩ := h
  unfold seckillScriptRun
  by_cases hm : u ∈ st.winners
  · exact ⟨v, by simp [hm, hv], hv0⟩
  · by_cases hle : v ≤ 0
    · exact ⟨v, by simp [hm, hle, hv], hv0⟩
    · exact ⟨v - 1, by simp [hm, hle, hv], by omega⟩

/-- Along any request sequence the counter stays present and ≥ 0. -/
lemma seckillStates_stock_nonneg (us : List Int) :
    ∀ st : GateState, (∃ v, st.stock = some v ∧ 0 ≤ v) →
      ∀ st' ∈ seckillStates st us, ∃ v, st'.stock = some v ∧ 0 ≤ v := by
  induction us with
  | nil =>
    intro st h st' hmem
    simp only [seckillStates, List.mem_singleton] at hmem
    exact hmem ▸ h
  | cons u rest ih =>
    intro st h st' hmem
    simp only [seckillStates, List.mem_cons] at hmem
    rcases hmem with rfl | hmem
    · exact h
    · exact ih _ (seckill_step_stock_nonneg u h) st' hmem

/-- Main inductive invariant for the admission gate: starting from a
counter `s` and duplicate-free winners `w`, the number of WON responses
is `min` of the number of distinct fresh users and `s`; the winners list
stays duplicate-free; its members are the initial winners plus exactly
the users that won; and no initial winner wins again. -/
lemma runSeckill_main (us : List Int) :
    ∀ (s : ℕ) (w : List Int), w.Nodup →
      ((wonUsers (runSeckill ⟨some (s : Int), w⟩ us).1).length
          = min ((us.toFinset \ w.toFinset).card) s)
      ∧ (runSeckill ⟨some (s : Int), w⟩ us).2.winners.Nodup
      ∧ (∀ u : Int, u ∈ (runSeckill ⟨some (s : Int), w⟩ us).2.winners ↔
          u ∈ w ∨ u ∈ wonUsers (runSeckill ⟨some (s : Int), w⟩ us).1)
      ∧ (∀ u ∈ wonUsers (runSeckill ⟨some (s : Int), w⟩ us).1, u ∉ w)
      ∧ (wonUsers (runSeckill ⟨some (s : Int), w⟩ us).1).Nodup := by
  induction us with
  | nil =>
    intro s w hw
    refine ⟨?_, hw, ?_, ?_, ?_⟩ <;>
      simp [runSeckill, wonUsers]
  | cons u rest ih =>
    intro s w hw
    by_cases hm : u ∈ w
    -- duplicate user: script returns -1, state unchanged
    · have hstep : seckillScriptRun ⟨some (s : Int), w⟩ u = (-1, ⟨some (s : Int), w⟩) :=
        @scriptRun_dup ⟨some (s : Int), w⟩ u hm
      rw [runSeckill_cons, hstep]
      obtain ⟨ih1, ih2, ih3, ih4, ih5⟩ := ih s w hw
      have hfin : (u :: rest).toFinset \ w.toFinset = rest.toFinset \ w.toFinset := by
        ext x
        simp only [List.toFinset_cons, Finset.mem_sdiff, Finset.mem_insert, List.mem_toFinset]
        constructor
        · rintro ⟨rfl | hx, hxw⟩
          · exact absurd hm hxw
          · exact ⟨hx, hxw⟩
        · rintro ⟨hx, hxw⟩
          exact ⟨Or.inr hx, hxw⟩
      have hwon : wonUsers ((u, (-1 : Int)) ::
          (runSeckill ⟨some (s : Int), w⟩ rest).1) =
          wonUsers (runSeckill ⟨some (s : Int), w⟩ rest).1 := by
        rw [wonUsers_cons]; norm_num
      refine ⟨?_, ih2, ?_, ?_, ?_⟩
      · rw [hwon, hfin]; exact ih1
      · intro u'; rw [hwon]; exact ih3 u'
      · intro u' hu'; rw [hwon] at hu'; exact ih4 u' hu'
      · rw [hwon]; exact ih5
    · by_cases hz : (s : Int) ≤ 0
      -- fresh user but counter exhausted: script returns 0, state unchanged
      · have hs0 : s = 0 := by omega
        have hstep : seckillScriptRun ⟨some (s : Int), w⟩ u = (0, ⟨some (s : Int), w⟩) :=
          scriptRun_soldOut hm hz
        rw [runSeckill_cons, hstep]
        obtain ⟨ih1, ih2, ih3, ih4, ih5⟩ := ih s w hw
        have hwon : wonUsers ((u, (0 : Int)) ::
            (runSeckill ⟨some (s : Int), w⟩ rest).1) =
            wonUsers (runSeckill ⟨some (s : Int), w⟩ rest).1 := by
          rw [wonUsers_cons]; norm_num
        refine ⟨?_, ih2, ?_, ?_, ?_⟩
        · rw [hwon, hs0]; rw [hs0] at ih1; omega
        · intro u'; rw [hwon]; exact ih3 u'
        · intro u' hu'; rw [hwon] at hu'; exact ih4 u' hu'
        · rw [hwon]; exact ih5
      -- fresh user, counter positive: WON
      · have hs1 : 1 ≤ s := by omega
        have hcast : (s : Int) - 1 = ((s - 1 : ℕ) : Int) := by omega
        have hstep : seckillScriptRun ⟨some (s : Int), w⟩ u =
            (1, ⟨some ((s - 1 : ℕ) : Int), u :: w⟩) := by
          rw [scriptRun_won hm hz, hcast]
        rw [runSeckill_cons, hstep]
        have hw' : (u :: w).Nodup := List.nodup_cons.mpr ⟨hm, hw⟩
        obtain ⟨ih1, ih2, ih3, ih4, ih5⟩ := ih (s - 1) (u :: w) hw'
        have hwon : wonUsers ((u, (1 : Int)) ::
            (runSeckill ⟨some ((s - 1 : ℕ) : Int), u :: w⟩ rest).1) =
            u :: wonUsers (runSeckill ⟨some ((s - 1 : ℕ) : Int), u :: w⟩ rest).1 := by
          rw [wonUsers_cons]; norm_num
        have huw : u ∉ w.toFinset := fun hc => hm (List.mem_toFinset.mp hc)
        -- the card bookkeeping
        have hsdiff : rest.toFinset \ (u :: w).toFinset =
            (rest.toFinset \ w.toFinset).erase u := by
          ext x
          simp only [List.toFinset_cons, Finset.mem_sdiff, Finset.mem_insert,
            Finset.mem_erase]
          tauto
        have hins : (u :: rest).toFinset \ w.toFinset =
            insert u (rest.toFinset \ w.toFinset) := by
          ext x
          simp only [List.toFinset_cons, Finset.mem_sdiff, Finset.mem_insert]
          constructor
          · rintro ⟨rfl | hx, hxw⟩
            · exact Or.inl rfl
            · exact Or.inr ⟨hx, hxw⟩
          · rintro (rfl | ⟨hx, hxw⟩)
            · exact ⟨Or.inl rfl, huw⟩
            · exact ⟨Or.inr hx, hxw⟩
        have hcount : (wonUsers ((u, (1 : Int)) ::
            (runSeckill ⟨some ((s - 1 : ℕ) : Int), u :: w⟩ rest).1)).length
            = min (((u :: rest).toFinset \ w.toFinset).card) s := by
          rw [hwon, List.length_cons, ih1, hsdiff, hins]
          by_cases hA : u ∈ rest.toFinset \ w.toFinset
          · rw [Finset.insert_eq_self.mpr hA, Finset.card_erase_of_mem hA]
            have : 1 ≤ (rest.toFinset \ w.toFinset).card := Finset.card_pos.mpr ⟨u, hA⟩
            omega
          · rw [Finset.card_insert_of_not_mem hA, Finset.erase_eq_of_not_mem hA]
            omega
        refine ⟨hcount, ?_, ?_, ?_, ?_⟩
        · exact ih2
        · intro u'
          rw [hwon, List.mem_cons]
          rw [ih3 u', List.mem_cons]
          tauto
        · intro u' hu'
          rw [hwon, List.mem_cons] at hu'
          rcases hu' with rfl | hu'
          · exact hm
          · exact fun hc => ih4 u' hu' (List.mem_cons_of_mem u hc)
        · rw [hwon]
          refine List.nodup_cons.mpr ⟨?_, ih5⟩
          intro hc
          exact ih4 u hc (List.mem_cons_self u w)

/-- Claim C1: no oversell at the flash admission gate: arming the counter
to `S` with empty winners and running any request list `us` atomically,
exactly `min D S` requests get script code 1 (WON), where `D` is the
number of distinct user ids; the counter never drops below 0; and the
winners set holds exactly the WON users, each exactly once. -/
theorem flash_no_oversell (S : ℕ) (us : List Int) :
    ((wonUsers (runSeckill ⟨some (S : Int), []⟩ us).1).length
        = min us.toFinset.card S)
    ∧ (∀ st ∈ seckillStates ⟨some (S : Int), []⟩ us, ∃ v, st.stock = some v ∧ 0 ≤ v)
    ∧ (runSeckill ⟨some (S : Int), []⟩ us).2.winners.Nodup
    ∧ (∀ u : Int, u ∈ (runSeckill ⟨some (S : Int), []⟩ us).2.winners ↔
        u ∈ wonUsers (runSeckill ⟨some (S : Int), []⟩ us).1)
    ∧ (wonUsers (runSeckill ⟨some (S : Int), []⟩ us).1).Nodup := by
  obtain ⟨h1, h2, h3, _, h5⟩ := runSeckill_main us S [] List.nodup_nil
  refine ⟨?_, ?_, h2, ?_, h5⟩
  · simpa using h1
  · exact seckillStates_stock_nonneg us _ ⟨(S : Int), rfl, by exact_mod_cast Nat.zero_le S⟩
  · intro u
    have := h3 u
    simpa using this

/-- Witness for C1 at a concrete input: counter 2, requests from users
5, 6, 5, 7 (three distinct users, one duplicate). -/
theorem flash_no_oversell_witness :
    ((wonUsers (runSeckill ⟨some ((2 : ℕ) : Int), []⟩ [5, 6, 5, 7]).1).length
        = min ([5, 6, 5, 7] : List Int).toFinset.card 2)
    ∧ (∃ v, (GateState.mk (some ((2 : ℕ) : Int)) []).stock = some v ∧ 0 ≤ v) := by
  refine ⟨(flash_no_oversell 2 [5, 6, 5, 7]).1, ?_⟩
  exact (flash_no_oversell 2 [5, 6, 5, 7]).2.1 ⟨some ((2 : ℕ) : Int), []⟩ (by
    simp [seckillStates, seckillScriptRun])

lemma DecreaseStock_insufficient (stocks : List (Int × Int)) (sku s c : Int)
    (hl : lookupStock stocks sku = some s) (hlt : s < c) :
    DecreaseStock stocks sku c = (Code.failedPrecondition, stocks) := by
  unfold DecreaseStock
  rw [hl]
  simp [hlt]

lemma lookupStock_single (k s : Int) : lookupStock [(k, s)] k = some s := by
  simp [lookupStock]

lemma setStock_single (k s v : Int) : setStock [(k, s)] k v = [(k, v)] := by
  simp [setStock]

lemma DecreaseStock_single (k s c : Int) :
    DecreaseStock [(k, s)] k c =
      if s < c then (Code.failedPrecondition, [(k, s)])
      else (Code.ok, [(k, s - c)]) := by
  unfold DecreaseStock
  rw [lookupStock_single]
  by_cases h : s < c
  · simp [h]
  · simp [h, setStock_single]

lemma RollbackStock_single (k s c : Int) :
    RollbackStock [(k, s)] k c = (Code.ok, [(k, s + c)]) := by
  unfold RollbackStock
  rw [lookupStock_single]
  simp [setStock_single]

/-- Accounting invariant: a serialized run over a single-SKU table ends
with `stock = S0 − Σ succeeded decreases + Σ rollbacks`. -/
lemma runStockOps_acc (k : Int) (ops : List StockOp) : ∀ s : Int,
    (runStockOps k [(k, s)] ops).2 =
      [(k, s - sumDecOk (runStockOps k [(k, s)] ops).1
          + sumRb (runStockOps k [(k, s)] ops).1)] := by
  induction ops with
  | nil => intro s; simp [runStockOps, sumDecOk, sumRb]
  | cons op rest ih =>
    intro s
    cases op with
    | dec c =>
      by_cases h : s < c
      · have hstep : applyStockOp k [(k, s)] (.dec c) =
            (Code.failedPrecondition, [(k, s)]) := by
          simp [applyStockOp, DecreaseStock_single, h]
        simp only [runStockOps, hstep, sumDecOk, sumRb]
        exact ih s
      · have hstep : applyStockOp k [(k, s)] (.dec c) =
            (Code.ok, [(k, s - c)]) := by
          simp [applyStockOp, DecreaseStock_single, h]
        simp only [runStockOps, hstep, sumDecOk, sumRb]
        rw [ih (s - c)]
        have : s - c - sumDecOk (runStockOps k [(k, s - c)] rest).1
              + sumRb (runStockOps k [(k, s - c)] rest).1
            = s - (c + sumDecOk (runStockOps k [(k, s - c)] rest).1)
              + sumRb (runStockOps k [(k, s - c)] rest).1 := by ring
        rw [this]
    | rb c =>
      have hstep : applyStockOp k [(k, s)] (.rb c) = (Code.ok, [(k, s + c)]) := by
        simp [applyStockOp, RollbackStock_single]
      simp only [runStockOps, hstep, sumDecOk, sumRb]
      rw [ih (s + c)]
      have : s + c - sumDecOk (runStockOps k [(k, s + c)] rest).1
            + sumRb (runStockOps k [(k, s + c)] rest).1
          = s - sumDecOk (runStockOps k [(k, s + c)] rest).1
            + (c + sumRb (runStockOps k [(k, s + c)] rest).1) := by ring
      rw [this]

/-- Non-negativity invariant: if every call's count is ≥ 0 and the
initial stock is ≥ 0, every observed stock table is `[(sku, v)]` with
`v ≥ 0`. -/
lemma stockTrace_nonneg (k : Int) (ops : List StockOp)
    (hops : ∀ op ∈ ops, 0 ≤ op.amount) : ∀ s : Int, 0 ≤ s →
    ∀ sts ∈ stockTrace k [(k, s)] ops, ∃ v, sts = [(k, v)] ∧ 0 ≤ v := by
  induction ops with
  | nil =>
    intro s hs sts hmem
    simp only [stockTrace, List.mem_singleton] at hmem
    exact ⟨s, hmem, hs⟩
  | cons op rest ih =>
    intro s hs sts hmem
    have hop : 0 ≤ op.amount := hops op (List.mem_cons_self op rest)
    have hrest : ∀ o ∈ rest, 0 ≤ o.amount :=
      fun o ho => hops o (List.mem_cons_of_mem op ho)
    simp only [stockTrace, List.mem_cons] at hmem
    rcases hmem with rfl | hmem
    · exact ⟨s, rfl, hs⟩
    · cases op with
      | dec c =>
        by_cases h : s < c
        · have hstep : applyStockOp k [(k, s)] (.dec c) =
              (Code.failedPrecondition, [(k, s)]) := by
            simp [applyStockOp, DecreaseStock_single, h]
          rw [hstep] at hmem
          exact ih hrest s hs sts hmem
        · have hstep : applyStockOp k [(k, s)] (.dec c) =
              (Code.ok, [(k, s - c)]) := by
            simp [applyStockOp, DecreaseStock_single, h]
          rw [hstep] at hmem
          exact ih hrest (s - c) (by omega) sts hmem
      | rb c =>
        have hstep : applyStockOp k [(k, s)] (.rb c) = (Code.ok, [(k, s + c)]) := by
          simp [applyStockOp, RollbackStock_single]
        rw [hstep] at hmem
        have hc : 0 ≤ c := hop
        exact ih hrest (s + c) (by omega) sts hmem

/-- Claim C3: inventory accounting: `Decrease` fails with
FAILED_PRECONDITION leaving the table untouched when `stock < count`;
`Rollback` unconditionally adds; a serialized sequence of completed
calls ends with `stock = S0 − Σ succeeded decreases + Σ rollbacks`; and
with non-negative counts and initial stock the observed stock is never
negative. -/
theorem inventory_accounting (sku S0 : Int) (ops : List StockOp) :
    (∀ stocks s c, lookupStock stocks sku = some s → s < c →
        DecreaseStock stocks sku c = (Code.failedPrecondition, stocks))
    ∧ (∀ s c, RollbackStock [(sku, s)] sku c = (Code.ok, [(sku, s + c)]))
    ∧ ((runStockOps sku [(sku, S0)] ops).2 =
        [(sku, S0 - sumDecOk (runStockOps sku [(sku, S0)] ops).1
            + sumRb (runStockOps sku [(sku, S0)] ops).1)])
    ∧ (0 ≤ S0 → (∀ op ∈ ops, 0 ≤ op.amount) →
        ∀ sts ∈ stockTrace sku [(sku, S0)] ops, ∃ v, sts = [(sku, v)] ∧ 0 ≤ v) := by
  refine ⟨?_, ?_, runStockOps_acc sku ops S0, ?_⟩
  · intro stocks s c hl hlt
    exact DecreaseStock_insufficient stocks sku s c hl hlt
  · intro s c
    exact RollbackStock_single sku s c
  · intro h0 hops
    exact stockTrace_nonneg sku ops hops S0 h0

/-- Witness for C3 at a concrete input: SKU 7 with initial stock 5 and
the call sequence decrease 3, decrease 4 (fails), rollback 2. -/
theorem inventory_accounting_witness :
    (DecreaseStock [((7 : Int), (2 : Int))] 7 4 = (Code.failedPrecondition, [(7, 2)]))
    ∧ ((runStockOps 7 [((7 : Int), (5 : Int))] [.dec 3, .dec 4, .rb 2]).2 =
        [(7, 5 - sumDecOk (runStockOps 7 [((7 : Int), (5 : Int))]
              [.dec 3, .dec 4, .rb 2]).1
            + sumRb (runStockOps 7 [((7 : Int), (5 : Int))] [.dec 3, .dec 4, .rb 2]).1)])
    ∧ (∃ v, ([((7 : Int), (5 : Int))] : List (Int × Int)) = [(7, v)] ∧ 0 ≤ v) := by
  refine ⟨?_, (inventory_accounting 7 5 [.dec 3, .dec 4, .rb 2]).2.2.1, ?_⟩
  · exact (inventory_accounting 7 5 []).1 [(7, 2)] 2 4 (by decide) (by decide)
  · exact (inventory_accounting 7 5 [.dec 3, .dec 4, .rb 2]).2.2.2 (by decide)
      (by decide) [(7, 5)] (by simp [stockTrace])

lemma rollbackCalls_eq_map (items : List OrderItemRow) : ∀ fails,
    rollbackCalls items fails = items.map (fun it => (it.skuId, it.quantity)) := by
  induction items with
  | nil => intro fails; rfl
  | cons it rest ih => intro fails; simp [rollbackCalls, ih]

/-- Counterexample to claim C4: the claim says `MarkPaid` returns failure
when the status is neither PENDING nor PAID.  On a CANCELLED order
(status 2) the code instead returns success and commits the transition
CANCELLED → PAID. -/
theorem markpaid_accepts_cancelled :
    MarkOrderPaid [cancelledOrder] "O1" =
      (Code.ok, [{ cancelledOrder with status := 1 }]) := by
  decide

/-- Claim C4 as amended: `cancelOrderLogic` transitions only
PENDING → CANCELLED and is a no-op success from any other status;
`MarkOrderPaid` is an idempotent success on PAID and otherwise sets the
status to PAID from any status — including CANCELLED and SHIPPED — with
no guard rejecting the transition. -/
theorem order_status_transitions (db : List OrderRow) (no : String) (o : OrderRow)
    (hfind : findOrder db no = some o) :
    (o.status = 1 → MarkOrderPaid db no = (Code.ok, db))
    ∧ (o.status ≠ 1 → MarkOrderPaid db no = (Code.ok, updateStatus db no 1))
    ∧ (∀ f, o.status ≠ 0 → cancelOrderLogic db no f = (Code.ok, db, []))
    ∧ (∀ f, o.status = 0 →
        cancelOrderLogic db no f =
          (Code.ok, updateStatus db no 2, rollbackCalls o.items f)) := by
  refine ⟨?_, ?_, ?_, ?_⟩
  · intro h1; unfold MarkOrderPaid; rw [hfind]; simp [h1]
  · intro h1; unfold MarkOrderPaid; rw [hfind]; simp [h1]
  · intro f h0; unfold cancelOrderLogic; rw [hfind]; simp [h0]
  · intro f h0; unfold cancelOrderLogic; rw [hfind]; simp [h0]

/-- Witness for C4 (amended) at a concrete input: a PENDING order is
marked PAID. -/
theorem order_status_transitions_witness :
    MarkOrderPaid [{ cancelledOrder with status := 0 }] "O1" =
      (Code.ok, updateStatus [{ cancelledOrder with status := 0 }] "O1" 1) :=
  (order_status_transitions [{ cancelledOrder with status := 0 }] "O1"
    { cancelledOrder with status := 0 } (by decide)).2.1 (by decide)

/-- Claim C5: cancel is idempotent and biased to succeed: on any order
whose status is not PENDING it returns success, changes nothing and
issues no rollback; on a PENDING order it sets CANCELLED and issues one
`Inventory.Rollback(sku, qty)` per item; rollback failures never change
the outcome. -/
theorem cancel_idempotent (db : List OrderRow) (no : String) (o : OrderRow)
    (hfind : findOrder db no = some o) :
    (o.status ≠ 0 → ∀ f, cancelOrderLogic db no f = (Code.ok, db, []))
    ∧ (o.status = 0 → ∀ f,
        cancelOrderLogic db no f =
          (Code.ok, updateStatus db no 2,
            o.items.map (fun it => (it.skuId, it.quantity))))
    ∧ (∀ db' no' f1 f2, cancelOrderLogic db' no' f1 = cancelOrderLogic db' no' f2) := by
  refine ⟨?_, ?_, ?_⟩
  · intro h0 f; unfold cancelOrderLogic; rw [hfind]; simp [h0]
  · intro h0 f; unfold cancelOrderLogic; rw [hfind]
    simp [h0, rollbackCalls_eq_map]
  · intro db' no' f1 f2
    unfold cancelOrderLogic
    cases findOrder db' no' with
    | none => rfl
    | some o' =>
      by_cases h : o'.status ≠ 0
      · simp [h]
      · simp [h, rollbackCalls_eq_map]

/-- Witness for C5 at a concrete input: cancelling the CANCELLED order
is a success no-op, for any failure pattern of the rollback RPC. -/
theorem cancel_idempotent_witness :
    cancelOrderLogic [cancelledOrder] "O1" [true] = (Code.ok, [cancelledOrder], []) :=
  (cancel_idempotent [cancelledOrder] "O1" cancelledOrder (by decide)).1
    (by decide) [true]

lemma countOrderNo_append (db : List OrderRow) (row : OrderRow) (no : String) :
    countOrderNo (db ++ [row]) no =
      countOrderNo db no + (if row.orderNo = no then 1 else 0) := by
  unfold countOrderNo
  rw [List.filter_append]
  by_cases h : row.orderNo = no
  · simp [h]
  · simp [h]

lemma createSeckillOrder_dup (db : List OrderRow) (u s : Int)
    (addrs : List AddressRow) (prod : Option ProductInfo)
    (h : 0 < countOrderNo db (seckillOrderNo u s)) :
    createSeckillOrder db u s addrs prod = some db := by
  unfold createSeckillOrder
  simp [h]

lemma createSeckillOrder_fresh (db : List OrderRow) (u s : Int)
    (addrs : List AddressRow) (p : ProductInfo)
    (h : countOrderNo db (seckillOrderNo u s) = 0) :
    ∃ row, createSeckillOrder db u s addrs (some p) = some (db ++ [row])
      ∧ row.orderNo = seckillOrderNo u s ∧ row.userId = u ∧ row.status = 0
      ∧ row.items.map (fun it => (it.skuId, it.quantity)) = [(p.skuId, 1)] := by
  have h' : ¬ 0 < countOrderNo db (seckillOrderNo u s) := by omega
  cases addrs with
  | nil =>
    refine ⟨{ orderNo := seckillOrderNo u s, userId := u, totalAmount := p.price,
              status := 0, receiverName := "秒杀用户" ++ toString u,
              receiverMobile := "13800008888",
              receiverAddress := "秒杀专用通道虚拟地址",
              items := [{ productId := p.id, skuId := p.skuId, productName := p.name,
                          skuName := p.skuName, price := p.price, quantity := 1,
                          picture := p.picture }] }, ?_, rfl, rfl, rfl, rfl⟩
    unfold createSeckillOrder
    simp [h']
  | cons a rest =>
    refine ⟨{ orderNo := seckillOrderNo u s, userId := u, totalAmount := p.price,
              status := 0, receiverName := a.name, receiverMobile := a.mobile,
              receiverAddress := a.province ++ a.city ++ a.district ++ a.detail,
              items := [{ productId := p.id, skuId := p.skuId, productName := p.name,
                          skuName := p.skuName, price := p.price, quantity := 1,
                          picture := p.picture }] }, ?_, rfl, rfl, rfl, rfl⟩
    unfold createSeckillOrder
    simp [h']

lemma iterateSeckill_stable (u s : Int) (addrs : List AddressRow)
    (prod : Option ProductInfo) (n : Nat) : ∀ db : List OrderRow,
    0 < countOrderNo db (seckillOrderNo u s) →
    iterateSeckill u s addrs prod n db = some db := by
  induction n with
  | zero => intro db _; rfl
  | succ n ih =>
    intro db h
    unfold iterateSeckill
    rw [createSeckillOrder_dup db u s addrs prod h]
    exact ih db h

/-- Claim C6: flash-order idempotence: the consumer computes the
deterministic order number `"SK-" ∥ user ∥ "-" ∥ sku`; if an order with
it exists it stops as a success; otherwise it inserts exactly one
PENDING order with one quantity-1 item — so redelivering the same event
any number of times leaves exactly one row with that order number. -/
theorem seckill_consumer_idempotent (db : List OrderRow) (u s : Int)
    (addrs : List AddressRow) (p : ProductInfo)
    (hfresh : countOrderNo db (seckillOrderNo u s) = 0) :
    (∀ db0, 0 < countOrderNo db0 (seckillOrderNo u s) →
        createSeckillOrder db0 u s addrs (some p) = some db0)
    ∧ (∃ row, createSeckillOrder db u s addrs (some p) = some (db ++ [row])
        ∧ row.orderNo = seckillOrderNo u s ∧ row.userId = u ∧ row.status = 0
        ∧ row.items.map (fun it => (it.skuId, it.quantity)) = [(p.skuId, 1)])
    ∧ (∀ n, 1 ≤ n → ∃ dbn, iterateSeckill u s addrs (some p) n db = some dbn
        ∧ countOrderNo dbn (seckillOrderNo u s) = 1) := by
  refine ⟨fun db0 h => createSeckillOrder_dup db0 u s addrs (some p) h,
    createSeckillOrder_fresh db u s addrs p hfresh, ?_⟩
  intro n hn
  obtain ⟨row, hrun, hno, _, _, _⟩ := createSeckillOrder_fresh db u s addrs p hfresh
  obtain ⟨m, rfl⟩ : ∃ m, n = m + 1 := ⟨n - 1, by omega⟩
  have hcount1 : countOrderNo (db ++ [row]) (seckillOrderNo u s) = 1 := by
    rw [countOrderNo_append, hfresh, hno]
    simp
  refine ⟨db ++ [row], ?_, hcount1⟩
  unfold iterateSeckill
  rw [hrun]
  exact iterateSeckill_stable u s addrs (some p) m (db ++ [row]) (by omega)

/-- Witness for C6 at a concrete input: user 42, SKU 9, empty initial
table, three deliveries of the same event. -/
theorem seckill_consumer_idempotent_witness :
    ∃ dbn, iterateSeckill 42 9 []
        (some { id := 1, skuId := 9, name := "p", skuName := "s",
                price := 100, picture := "pic" }) 3 [] = some dbn
      ∧ countOrderNo dbn (seckillOrderNo 42 9) = 1 :=
  (seckill_consumer_idempotent [] 42 9 []
    { id := 1, skuId := 9, name := "p", skuName := "s", price := 100, picture := "pic" }
    (by decide)).2.2 3 (by decide)

lemma getProduct_skuId {products : List ProductInfo} {skuId : Int} {p : ProductInfo}
    (h : getProduct products skuId = some p) : p.skuId = skuId := by
  unfold getProduct at h
  have := List.find?_some h
  simpa using this

/-- An aborted per-line loop reports only NOT_FOUND (missing product)
or the wrap code of a failed decrement. -/
lemma processItems_error_code (products : List ProductInfo) (failCode : Code) :
    ∀ (items : List CartItem) (stocks : List (Int × Int)) (c : Code)
      (stocks' : List (Int × Int)),
      processItems products failCode items stocks = .error (c, stocks') →
      c = Code.notFound ∨ c = failCode := by
  intro items
  induction items with
  | nil =>
    intro stocks c stocks' h
    simp [processItems] at h
  | cons item rest ih =>
    intro stocks c stocks' h
    unfold processItems at h
    cases hp : getProduct products item.skuId with
    | none =>
      rw [hp] at h
      simp only [Except.error.injEq, Prod.mk.injEq] at h
      exact Or.inl h.1.symm
    | some p =>
      rw [hp] at h
      by_cases hr : (DecreaseStock stocks item.skuId item.quantity).1 = Code.ok
      · simp only [hr, if_true] at h
        cases hrec : processItems products failCode rest
            (DecreaseStock stocks item.skuId item.quantity).2 with
        | error e =>
          rw [hrec] at h
          simp only [Except.error.injEq] at h
          exact ih _ c stocks' (by rw [hrec, h])
        | ok v =>
          rw [hrec] at h
          simp at h
      · simp only [hr, if_false] at h
        simp only [Except.error.injEq, Prod.mk.injEq] at h
        exact Or.inr h.1.symm

/-- A successful per-line loop produces exactly one order item per input
line, with the line's SKU and quantity. -/
lemma processItems_ok_items (products : List ProductInfo) (failCode : Code) :
    ∀ (items : List CartItem) (stocks stocks' : List (Int × Int))
      (rows : List OrderItemRow) (total : Int),
      processItems products failCode items stocks = .ok (stocks', rows, total) →
      rows.map (fun r => (r.skuId, r.quantity)) =
        items.map (fun it => (it.skuId, it.quantity)) := by
  intro items
  induction items with
  | nil =>
    intro stocks stocks' rows total h
    simp only [processItems, Except.ok.injEq, Prod.mk.injEq] at h
    rw [← h.2.1]
    simp
  | cons item rest ih =>
    intro stocks stocks' rows total h
    unfold processItems at h
    cases hp : getProduct products item.skuId with
    | none => rw [hp] at h; simp at h
    | some p =>
      rw [hp] at h
      by_cases hr : (DecreaseStock stocks item.skuId item.quantity).1 = Code.ok
      · simp only [hr, if_true] at h
        cases hrec : processItems products failCode rest
            (DecreaseStock stocks item.skuId item.quantity).2 with
        | error e => rw [hrec] at h; simp at h
        | ok v =>
          rw [hrec] at h
          obtain ⟨stocksf, rows', total'⟩ := v
          simp only [Except.ok.injEq, Prod.mk.injEq] at h
          rw [← h.2.1]
          simp only [List.map_cons]
          rw [ih _ _ _ _ hrec]
          simp [getProduct_skuId hp]
      · simp [hr] at h

lemma removeSelected_eq (sel : List CartItem) : ∀ c : List CartItem,
    removeSelected c sel =
      c.filter (fun x => decide (∀ it ∈ sel, x.skuId ≠ it.skuId)) := by
  induction sel with
  | nil =>
    intro c
    show c = _
    simp
  | cons it rest ih =>
    intro c
    show removeSelected (c.filter (fun x => x.skuId ≠ it.skuId)) rest = _
    rw [ih, List.filter_filter]
    apply List.filter_congr
    intro x _
    by_cases h1 : x.skuId = it.skuId
    · simp [h1]
    · simp [h1]

/-- Deleting the selected cart lines leaves exactly the lines whose SKU
was not in the request's selection. -/
lemma removeSelected_filter (c : List CartItem) (skuIds : List Int) :
    removeSelected c (c.filter (fun it => it.skuId ∈ skuIds)) =
      c.filter (fun x => x.skuId ∉ skuIds) := by
  rw [removeSelected_eq]
  apply List.filter_congr
  intro x hx
  have hiff : (∀ it ∈ c.filter (fun it => it.skuId ∈ skuIds), x.skuId ≠ it.skuId) ↔
      x.skuId ∉ skuIds := by
    constructor
    · intro hall hmem
      exact hall x (List.mem_filter.mpr ⟨hx, by simpa using hmem⟩) rfl
    · intro hnot it hit heq
      have hmem := List.mem_filter.mp hit
      exact hnot (heq ▸ (by simpa using hmem.2))
  simp only [decide_eq_decide]
  exact hiff

/-- The latest-revision `CreateOrder` has no branch that produces
PERMISSION_DENIED. -/
lemma createOrder_never_permissionDenied (env : OrderEnv) (req : CreateOrderReq)
    (now : Int) :
    (CreateOrder env req now).result ≠ CreateOrderResult.err Code.permissionDenied := by
  unfold CreateOrder
  by_cases h1 : req.addressId ≤ 0
  · simp [h1]
  · by_cases h2 : req.skuIds = []
    · simp [h1, h2]
    · cases ha : getAddress env.addresses req.addressId with
      | none => simp [h1, h2, ha]
      | some addr =>
        by_cases h3 : env.cart = []
        · simp [h1, h2, ha, h3]
        · by_cases h4 : env.cart.filter (fun it => it.skuId ∈ req.skuIds) = []
          · simp [h1, h2, ha, h3, h4]
          · cases hproc : processItems env.products .resourceExhausted
                (env.cart.filter (fun it => it.skuId ∈ req.skuIds)) env.stocks with
            | error e =>
              obtain ⟨c, stocks'⟩ := e
              rcases processItems_error_code _ _ _ _ _ _ hproc with rfl | rfl <;>
                simp [h1, h2, ha, h3, h4, hproc]
            | ok v =>
              obtain ⟨stocks', rows, total⟩ := v
              simp [h1, h2, ha, h3, h4, hproc]

/-- Counterexample to claim C8: in the latest revision of `CreateOrder`,
a request whose address belongs to a different user is not rejected:
it is not PERMISSION_DENIED, the stock is decremented, and an order row
is persisted. -/
theorem checkout_ignores_address_owner :
    ((getAddress envC8.addresses reqC8.addressId).map (fun a => a.userId) = some 2
        ∧ reqC8.userId = 1)
    ∧ (CreateOrder envC8 reqC8 1000).result ≠ CreateOrderResult.err Code.permissionDenied
    ∧ (CreateOrder envC8 reqC8 1000).stocks = [(5, 9)]
    ∧ (CreateOrder envC8 reqC8 1000).orders.length = 1 := by
  decide

/-- Claim C8 as amended: only the apps/order/main.go revision rejects a
foreign address with PERMISSION_DENIED before any side effect; the
latest (selected-sku-ids) revision never produces PERMISSION_DENIED —
it performs no address-ownership check at all. -/
theorem address_ownership_check (env : OrderEnv) (req : CreateOrderReq) (now : Int)
    (addr : AddressRow) :
    (¬ req.addressId ≤ 0 → getAddress env.addresses req.addressId = some addr →
        addr.userId ≠ req.userId →
        CreateOrderV1 env req now =
          ⟨.err .permissionDenied, env.stocks, env.orders, env.cart⟩)
    ∧ (∀ (env' : OrderEnv) (req' : CreateOrderReq) (now' : Int),
        (CreateOrder env' req' now').result ≠
          CreateOrderResult.err Code.permissionDenied) := by
  constructor
  · intro h1 ha hne
    unfold CreateOrderV1
    simp [h1, ha, hne]
  · intro env' req' now'
    exact createOrder_never_permissionDenied env' req' now'

/-- Witness for C8 (amended) at a concrete input: the V1 revision
rejects the foreign address. -/
theorem address_ownership_check_witness :
    CreateOrderV1 envC8 reqC8 5 =
      ⟨.err .permissionDenied, envC8.stocks, envC8.orders, envC8.cart⟩ :=
  (address_ownership_check envC8 reqC8 5
    { id := 1, userId := 2, name := "owner", mobile := "m",
      province := "P", city := "C", district := "D", detail := "X" }).1
    (by decide) (by decide) (by decide)

/-- Counterexample to claim C7: when a selected line's stock is
insufficient, `CreateOrder` surfaces RESOURCE_EXHAUSTED — not
FAILED_PRECONDITION — and the stock of lines decremented earlier in the
same request stays decremented (DB stock is *not* unchanged), though no
order row is persisted. -/
theorem checkout_oos_not_failedPrecondition :
    (CreateOrder envC7 reqC7 1000).result = CreateOrderResult.err Code.resourceExhausted
    ∧ (CreateOrder envC7 reqC7 1000).result ≠
        CreateOrderResult.err Code.failedPrecondition
    ∧ (CreateOrder envC7 reqC7 1000).stocks = [(1, 4), (11, 1)]
    ∧ (CreateOrder envC7 reqC7 1000).stocks ≠ envC7.stocks
    ∧ (CreateOrder envC7 reqC7 1000).orders = [] := by
  decide

/-- Claim C7 as amended: an insufficient selected line makes the loop fail
with RESOURCE_EXHAUSTED (wrapping the inventory service's
FAILED_PRECONDITION) without touching that line's stock, and the
request ends with that error, no order row persisted, the cart
untouched, and exactly the stock table the aborted loop left behind
(earlier lines of the same request stay decremented). -/
theorem checkout_insufficient_stock (env : OrderEnv) (req : CreateOrderReq)
    (now : Int) (addr : AddressRow) :
    (∀ (item : CartItem) (rest : List CartItem) (stocks : List (Int × Int))
        (s : Int) (p : ProductInfo),
        getProduct env.products item.skuId = some p →
        lookupStock stocks item.skuId = some s →
        s < item.quantity →
        processItems env.products Code.resourceExhausted (item :: rest) stocks =
          .error (Code.resourceExhausted, stocks))
    ∧ (∀ (c : Code) (stocks' : List (Int × Int)),
        ¬ req.addressId ≤ 0 → req.skuIds ≠ [] →
        getAddress env.addresses req.addressId = some addr →
        env.cart ≠ [] →
        env.cart.filter (fun it => it.skuId ∈ req.skuIds) ≠ [] →
        processItems env.products Code.resourceExhausted
            (env.cart.filter (fun it => it.skuId ∈ req.skuIds)) env.stocks =
          .error (c, stocks') →
        CreateOrder env req now = ⟨.err c, stocks', env.orders, env.cart⟩) := by
  constructor
  · intro item rest stocks s p hp hl hlt
    unfold processItems
    rw [hp]
    rw [DecreaseStock_insufficient stocks item.skuId s item.quantity hl hlt]
    simp
  · intro c stocks' h1 h2 ha h3 h4 hproc
    unfold CreateOrder
    simp [h1, h2, ha, h3, h4, hproc]

/-- Witness for C7 (amended) at the concrete two-line environment. -/
theorem checkout_insufficient_stock_witness :
    (processItems envC7.products Code.resourceExhausted
        [⟨11, 2⟩] [(11, 1)] = .error (Code.resourceExhausted, [(11, 1)]))
    ∧ CreateOrder envC7 reqC7 1000 =
        ⟨.err Code.resourceExhausted, [(1, 4), (11, 1)], envC7.orders, envC7.cart⟩ := by
  constructor
  · exact (checkout_insufficient_stock envC7 reqC7 1000
      { id := 1, userId := 1, name := "me", mobile := "m",
        province := "P", city := "C", district := "D", detail := "X" }).1
      ⟨11, 2⟩ [] [(11, 1)] 1
      { id := 101, skuId := 11, name := "b", skuName := "s2", price := 9, picture := "" }
      (by decide) (by decide) (by decide)
  · exact (checkout_insufficient_stock envC7 reqC7 1000
      { id := 1, userId := 1, name := "me", mobile := "m",
        province := "P", city := "C", district := "D", detail := "X" }).2
      Code.resourceExhausted [(1, 4), (11, 1)]
      (by decide) (by decide) (by decide) (by decide) (by decide) rfl

/-- Claim C9: selected-line scoping: `CreateOrder` rejects with
INVALID_ARGUMENT when no cart line matches the requested sku_ids, and
on success orders exactly the cart lines whose SKU is in the request's
selection (same SKUs and quantities) and removes only those lines from
the cart, leaving unselected lines untouched. -/
theorem checkout_selected_lines (env : OrderEnv) (req : CreateOrderReq) (now : Int)
    (addr : AddressRow)
    (h1 : ¬ req.addressId ≤ 0) (h2 : req.skuIds ≠ [])
    (ha : getAddress env.addresses req.addressId = some addr)
    (h3 : env.cart ≠ []) :
    (env.cart.filter (fun it => it.skuId ∈ req.skuIds) = [] →
        CreateOrder env req now =
          ⟨.err .invalidArgument, env.stocks, env.orders, env.cart⟩)
    ∧ (∀ (stocks' : List (Int × Int)) (rows : List OrderItemRow) (total : Int),
        env.cart.filter (fun it => it.skuId ∈ req.skuIds) ≠ [] →
        processItems env.products Code.resourceExhausted
            (env.cart.filter (fun it => it.skuId ∈ req.skuIds)) env.stocks =
          .ok (stocks', rows, total) →
        CreateOrder env req now =
          ⟨.success (toString now ++ toString req.userId) total, stocks',
            env.orders ++
              [{ orderNo := toString now ++ toString req.userId,
                 userId := req.userId, totalAmount := total, status := 0,
                 receiverName := addr.name, receiverMobile := addr.mobile,
                 receiverAddress :=
                   addr.province ++ addr.city ++ addr.district ++ addr.detail,
                 items := rows }],
            env.cart.filter (fun x => x.skuId ∉ req.skuIds)⟩
        ∧ rows.map (fun r => (r.skuId, r.quantity)) =
            (env.cart.filter (fun it => it.skuId ∈ req.skuIds)).map
              (fun it => (it.skuId, it.quantity))) := by
  constructor
  · intro h4
    unfold CreateOrder
    simp [h1, h2, ha, h3, h4]
  · intro stocks' rows total h4 hproc
    constructor
    · unfold CreateOrder
      rw [← removeSelected_filter env.cart req.skuIds]
      simp [h1, h2, ha, h3, h4, hproc]
    · exact processItems_ok_items env.products Code.resourceExhausted _ _ _ _ _ hproc

/-- Witness for C9 at the concrete environment: only the SKU-5 line is
ordered and only it leaves the cart; the SKU-6 line survives. -/
theorem checkout_selected_lines_witness :
    CreateOrder envC9 reqC9 1000 =
      ⟨.success (toString (1000 : Int) ++ toString (1 : Int)) 7, [(5, 9), (6, 4)],
        envC9.orders ++
          [{ orderNo := toString (1000 : Int) ++ toString (1 : Int),
             userId := 1, totalAmount := 7, status := 0,
             receiverName := "me", receiverMobile := "m",
             receiverAddress := "P" ++ "C" ++ "D" ++ "X",
             items := [{ productId := 50, skuId := 5, productName := "a",
                         skuName := "s", price := 7, quantity := 1, picture := "" }] }],
        envC9.cart.filter (fun x => x.skuId ∉ reqC9.skuIds)⟩ :=
  ((checkout_selected_lines envC9 reqC9 1000
    { id := 1, userId := 1, name := "me", mobile := "m",
      province := "P", city := "C", district := "D", detail := "X" }
    (by decide) (by decide) (by decide) (by decide)).2
    [(5, 9), (6, 4)]
    [{ productId := 50, skuId := 5, productName := "a", skuName := "s",
       price := 7, quantity := 1, picture := "" }] 7 (by decide) rfl).1

lemma findOrder_updateStatus (db : List OrderRow) (no : String) (st : Int) :
    findOrder (updateStatus db no st) no =
      (findOrder db no).map (fun o => { o with status := st }) := by
  induction db with
  | nil => rfl
  | cons o rest ih =>
    simp only [updateStatus, List.map_cons] at ih ⊢
    by_cases h : o.orderNo = no
    · simp [findOrder, List.find?_cons, h]
    · simp only [findOrder, List.find?_cons] at ih ⊢
      simp [h, ih]

/-- Claim C10: the payment path validates nothing: the gateway request
depends only on the body (not on the caller), `Pay`'s outcome is
independent of the amount (any amount, zero or negative included), and
for any existing order — whatever its status or owner — `Pay` succeeds
and the order ends up PAID. -/
theorem pay_no_validation (db : List OrderRow) (body : PayBody) (no : String)
    (a1 a2 u1 u2 : Int) (o : OrderRow) :
    (buildPayRequest u1 body = buildPayRequest u2 body)
    ∧ (Pay db { orderNo := no, amount := a1 } = Pay db { orderNo := no, amount := a2 })
    ∧ (findOrder db no = some o →
        (Pay db { orderNo := no, amount := a1 }).1 = Code.ok
        ∧ (findOrder (Pay db { orderNo := no, amount := a1 }).2 no).map
            (fun o' => o'.status) = some 1) := by
  refine ⟨rfl, rfl, ?_⟩
  intro hfind
  unfold Pay MarkOrderPaid
  rw [hfind]
  by_cases h1 : o.status = 1
  · simp [h1, hfind]
  · simp [h1, findOrder_updateStatus, hfind]

/-- Witness for C10 at a concrete input: a PENDING order "P1" paid with
a negative amount by an unrelated caller is marked PAID with success. -/
theorem pay_no_validation_witness :
    (Pay [payOrderC10] { orderNo := "P1", amount := -5 }).1 = Code.ok
    ∧ (findOrder (Pay [payOrderC10] { orderNo := "P1", amount := -5 }).2 "P1").map
        (fun o' => o'.status) = some 1 :=
  (pay_no_validation [payOrderC10] { orderNo := "P1", amount := 3 } "P1" (-5) 3 1 2
    payOrderC10).2.2 (by decide)

end Gomall
